import Mathlib

/-!
Shallow embedding of the `VideoEngagementAnalyzer` core of the
video-engagement-dashboard repository, together with the CSV ingestor's
field-coercion step (`parseCSV` in `VideoEngagementUI.tsx`).

JavaScript numbers are modelled as `JSNum`: either NaN or a rational.
The embedding keeps the analyzer's arithmetic exact over `ℚ`; IEEE-754
rounding and the infinities are outside the model.  A thrown JavaScript
exception is modelled by `Option`/`none`.
-/

/-- A JavaScript number as it appears in a CSV cell: NaN or a (finite)
rational value. -/
inductive JSNum where
  | nan : JSNum
  | fin : ℚ → JSNum
deriving DecidableEq, Repr

/-- A raw CSV cell value as stored by the ingestor: a string, a number,
or `undefined` (a row shorter than the header list). -/
inductive CellValue where
  | str : String → CellValue
  | num : JSNum → CellValue
  | undef : CellValue
deriving DecidableEq, Repr

def isDigitChar (c : Char) : Bool := '0' ≤ c && c ≤ '9'

/-- Whitespace for the model of JavaScript `trim` (the forms occurring
in CSV text). -/
def isWSChar (c : Char) : Bool := c = ' ' || c = '\t' || c = '\r' || c = '\n'

def trimChars (cs : List Char) : List Char :=
  ((cs.dropWhile isWSChar).reverse.dropWhile isWSChar).reverse

/-- Model of JavaScript `String.prototype.trim`. -/
def jsTrim (s : String) : String := String.mk (trimChars s.data)

def splitCharAux (c : Char) : List Char → List Char → List String
  | [], cur => [String.mk cur.reverse]
  | x :: xs, cur =>
      if x = c then String.mk cur.reverse :: splitCharAux c xs []
      else splitCharAux c xs (x :: cur)

/-- Model of JavaScript `s.split(c)` for a one-character separator:
`"" ↦ [""]`, separators at the ends produce empty fields. -/
def splitOnChar (c : Char) (s : String) : List String := splitCharAux c s.data []

def digitsToNat (cs : List Char) : Nat :=
  cs.foldl (fun a c => a * 10 + (c.toNat - 48)) 0

/-- Unsigned part of a JavaScript string numeric literal: digits with an
optional fractional part (`"5"`, `"5."`, `".5"`, `"5.25"`).  Anything
else is not a number. -/
def parseUnsigned (cs : List Char) : Option ℚ :=
  let intPart := cs.takeWhile isDigitChar
  let rest := cs.dropWhile isDigitChar
  match rest with
  | [] => if intPart = [] then none else some (digitsToNat intPart)
  | '.' :: frac =>
      if frac.all isDigitChar && (intPart ≠ [] || frac ≠ []) then
        some ((digitsToNat intPart : ℚ) + (digitsToNat frac : ℚ) / (10 : ℚ) ^ frac.length)
      else none
  | _ => none

/-- Model of JavaScript `Number(s)` on a string: the empty string is 0,
an optionally signed decimal literal is its value, everything else is
NaN.  (Hexadecimal, exponent and `Infinity` forms are outside the model;
CSV cells here are plain decimal counts.) -/
def strToNum (s : String) : JSNum :=
  match s.data with
  | [] => JSNum.fin 0
  | '-' :: rest =>
      match parseUnsigned rest with
      | some q => JSNum.fin (-q)
      | none => JSNum.nan
  | '+' :: rest =>
      match parseUnsigned rest with
      | some q => JSNum.fin q
      | none => JSNum.nan
  | cs =>
      match parseUnsigned cs with
      | some q => JSNum.fin q
      | none => JSNum.nan

/-- JavaScript `Number(v)` on a cell value: numbers pass through,
strings are parsed, `undefined` is NaN. -/
def jsToNumber (v : CellValue) : JSNum :=
  match v with
  | CellValue.num n => n
  | CellValue.str s => strToNum s
  | CellValue.undef => JSNum.nan

/-- The analyzer's numeric coercion `Number(v) || 0`: a falsy result
(NaN or 0) becomes 0, any other number passes through. -/
def coerceNum (v : CellValue) : ℚ :=
  match jsToNumber v with
  | JSNum.nan => 0
  | JSNum.fin q => if q = 0 then 0 else q

/-- A JavaScript `Date` as produced by `new Date(string)`: either an
Invalid Date or a calendar day (the analyzer only ever reads the
year-month part). -/
inductive JSDate where
  | invalid : JSDate
  | valid : Nat → Nat → Nat → JSDate
deriving DecidableEq, Repr

def isLeapYear (y : Nat) : Bool :=
  (y % 4 = 0 && y % 100 ≠ 0) || y % 400 = 0

def daysInMonth (y m : Nat) : Nat :=
  if m = 2 then (if isLeapYear y then 29 else 28)
  else if m = 4 || m = 6 || m = 9 || m = 11 then 30
  else 31

/-- Model of JavaScript `new Date(s)` restricted to ISO `YYYY-MM-DD`
date-only strings (the format of the `Tracking Date Formatted` column);
every other string yields an Invalid Date. -/
def parseDate (s : String) : JSDate :=
  match splitOnChar '-' s with
  | [ys, ms, ds] =>
      if ys.length = 4 && ys.data.all isDigitChar
          && ms.length = 2 && ms.data.all isDigitChar
          && ds.length = 2 && ds.data.all isDigitChar then
        let y := digitsToNat ys.data
        let m := digitsToNat ms.data
        let d := digitsToNat ds.data
        if 1 ≤ m && m ≤ 12 && 1 ≤ d && d ≤ daysInMonth y m then
          JSDate.valid y m d
        else JSDate.invalid
      else JSDate.invalid
  | _ => JSDate.invalid

def padNat (width n : Nat) : String :=
  let s := toString n
  String.mk (List.replicate (width - s.length) '0') ++ s

/-- `date.toISOString().slice(0, 7)`: the `"YYYY-MM"` key.  On an
Invalid Date, `toISOString` throws a RangeError, modelled as `none`. -/
def monthKey (d : JSDate) : Option String :=
  match d with
  | JSDate.invalid => none
  | JSDate.valid y m _ => some (padNat 4 y ++ "-" ++ padNat 2 m)

/-- One ingested tracking-data row (`EngagementData` in the source: the
date column is a string, the four numeric columns are string-or-number
cells). -/
structure EngagementData where
  trackingDate : String
  invites : CellValue
  clicks : CellValue
  plays : CellValue
  playTime : CellValue
  automationStage : String
  community : String
deriving DecidableEq, Repr

/-- A preprocessed row (`ProcessedData` in the source): date parsed,
numeric fields coerced with zero-fallback. -/
structure ProcessedData where
  trackingDate : JSDate
  invites : ℚ
  clicks : ℚ
  plays : ℚ
  playTime : ℚ
  automationStage : String
  community : String
deriving DecidableEq, Repr

/-- `VideoEngagementAnalyzer.preprocessData`. -/
def preprocessData (data : List EngagementData) : List ProcessedData :=
  data.map (fun row =>
    { trackingDate := parseDate row.trackingDate
      invites := coerceNum row.invites
      clicks := coerceNum row.clicks
      plays := coerceNum row.plays
      playTime := coerceNum row.playTime
      automationStage := row.automationStage
      community := row.community })

/-- A JavaScript object used as a string-keyed map, in insertion order
(`Record<string, T>` in the source). -/
abbrev Obj (α : Type) : Type := List (String × α)

/-- Property read `o[k]`. -/
def objGet {α : Type} (o : Obj α) (k : String) : Option α :=
  match o with
  | [] => none
  | (k', v') :: rest => if k' = k then some v' else objGet rest k

/-- Property write `o[k] = v`: update in place if the key is present,
append otherwise (JavaScript insertion order). -/
def objSet {α : Type} (o : Obj α) (k : String) (v : α) : Obj α :=
  match o with
  | [] => [(k, v)]
  | (k', v') :: rest => if k' = k then (k, v) :: rest else (k', v') :: objSet rest k v

/-- `StageMetrics` (also reused for monthly buckets): accumulated sums
plus the average set in a second pass (absent while accumulating). -/
structure StageMetrics where
  invites : ℚ
  clicks : ℚ
  plays : ℚ
  playTime : ℚ
  count : Nat
  avgPlayTime : Option ℚ
deriving DecidableEq, Repr

def zeroStage : StageMetrics :=
  { invites := 0, clicks := 0, plays := 0, playTime := 0, count := 0, avgPlayTime := none }

/-- Accumulate one row into a stage (or monthly) bucket. -/
def accumStage (st : StageMetrics) (row : ProcessedData) : StageMetrics :=
  { st with
    invites := st.invites + row.invites
    clicks := st.clicks + row.clicks
    plays := st.plays + row.plays
    playTime := st.playTime + row.playTime
    count := st.count + 1 }

/-- The body of the `forEach` in `calculateStageBreakdown`: create the
bucket with zeros if absent, then add the row's fields into it. -/
def bucketStep (stages : Obj StageMetrics) (key : String) (row : ProcessedData) :
    Obj StageMetrics :=
  let stages1 :=
    match objGet stages key with
    | none => objSet stages key zeroStage
    | some _ => stages
  match objGet stages1 key with
  | some st => objSet stages1 key (accumStage st row)
  | none => stages1

/-- The second pass setting `avgPlayTime = plays ? playTime / plays : 0`. -/
def setStageAvg (st : StageMetrics) : StageMetrics :=
  { st with avgPlayTime := some (if st.plays ≠ 0 then st.playTime / st.plays else 0) }

/-- `VideoEngagementAnalyzer.calculateStageBreakdown`. -/
def calculateStageBreakdown (data : List ProcessedData) : Obj StageMetrics :=
  (data.foldl (fun stages row => bucketStep stages row.automationStage row) []).map
    (fun kv => (kv.1, setStageAvg kv.2))

/-- `CommunityMetrics` in the source. -/
structure CommunityMetrics where
  totalInvites : ℚ
  totalClicks : ℚ
  totalPlays : ℚ
  totalPlayTime : ℚ
  clickRate : ℚ
  playRate : ℚ
  avgPlayTime : ℚ
  stageBreakdown : Obj StageMetrics
deriving DecidableEq

/-- `VideoEngagementAnalyzer.calculateCommunityMetrics`: sums via
`reduce(..., 0)` and rates guarded by JavaScript truthiness of the
denominator (`x ? a : 0`, so 0 when the denominator is 0). -/
def calculateCommunityMetrics (communityData : List ProcessedData) : CommunityMetrics :=
  let totalInvites := communityData.foldl (fun sum row => sum + row.invites) 0
  let totalClicks := communityData.foldl (fun sum row => sum + row.clicks) 0
  let totalPlays := communityData.foldl (fun sum row => sum + row.plays) 0
  let totalPlayTime := communityData.foldl (fun sum row => sum + row.playTime) 0
  { totalInvites := totalInvites
    totalClicks := totalClicks
    totalPlays := totalPlays
    totalPlayTime := totalPlayTime
    clickRate := if totalInvites ≠ 0 then totalClicks / totalInvites * 100 else 0
    playRate := if totalClicks ≠ 0 then totalPlays / totalClicks * 100 else 0
    avgPlayTime := if totalPlays ≠ 0 then totalPlayTime / totalPlays else 0
    stageBreakdown := calculateStageBreakdown communityData }

/-- JavaScript `toFixed(1)` on a rational: sign split off first, then
the integer nearest to `10·q` (ties to the larger), printed with one
decimal digit. -/
def toFixed1Pos (q : ℚ) : String :=
  let n : Nat := (q * 10 + 1 / 2).floor.toNat
  toString (n / 10) ++ "." ++ toString (n % 10)

def toFixed1 (q : ℚ) : String :=
  if q < 0 then "-" ++ toFixed1Pos (-q) else toFixed1Pos q

def strongMsg (r : ℚ) : String :=
  "Strong initial engagement with " ++ (toFixed1 r ++ "% click rate")

def oppMsg (r : ℚ) : String :=
  "Opportunity to improve initial engagement (" ++ (toFixed1 r ++ "% click rate)")

def watchMsg (t : ℚ) : String :=
  "Excellent average watch time of " ++ (toFixed1 t ++ " minutes")

def strongestMsg (stage : String) : String :=
  "Strongest performance in " ++ (stage ++ " stage")

/-- The callback of `stages.reduce` in `generateInsights`: keep the
current entry only when it has strictly more plays. -/
def bestStageStep (best current : String × StageMetrics) : String × StageMetrics :=
  if current.2.plays > best.2.plays then current else best

/-- `VideoEngagementAnalyzer.generateInsights`.  `stages.reduce` with no
initial value throws a TypeError on an empty breakdown, modelled as
`none`. -/
def generateInsights (metrics : CommunityMetrics) : Option (List String) :=
  let insights : List String := []
  let insights :=
    if metrics.clickRate > 50 then insights ++ [strongMsg metrics.clickRate]
    else if metrics.clickRate < 30 then insights ++ [oppMsg metrics.clickRate]
    else insights
  let insights :=
    if metrics.avgPlayTime > 5 then insights ++ [watchMsg metrics.avgPlayTime]
    else insights
  match metrics.stageBreakdown with
  | [] => none
  | first :: rest =>
      some (insights ++ [strongestMsg (rest.foldl bestStageStep first).1])

/-- `Strategy` in the source. -/
structure Strategy where
  focus : String
  actions : List String
deriving DecidableEq, Repr

def improveEngagementStrategy : Strategy :=
  { focus := "Improve Initial Engagement"
    actions := [
      "A/B test video thumbnail images",
      "Optimize video titles for clarity and impact",
      "Send invites during peak engagement hours",
      "Include personalized preview content in invitations"] }

def increasePlayRateStrategy : Strategy :=
  { focus := "Increase Play Rate"
    actions := [
      "Add social proof elements to landing pages",
      "Include video duration in preview",
      "Create stage-specific video content",
      "Implement one-click play functionality"] }

def extendWatchTimeStrategy : Strategy :=
  { focus := "Extend Watch Time"
    actions := [
      "Add chapter markers for longer videos",
      "Include interactive elements at key dropoff points",
      "Create shorter, more focused video content",
      "Add compelling calls-to-action throughout"] }

/-- `VideoEngagementAnalyzer.generateStrategies`. -/
def generateStrategies (metrics : CommunityMetrics) : List Strategy :=
  let strategies : List Strategy := []
  let strategies :=
    if metrics.clickRate < 40 then strategies ++ [improveEngagementStrategy] else strategies
  let strategies :=
    if metrics.playRate < 70 then strategies ++ [increasePlayRateStrategy] else strategies
  let strategies :=
    if metrics.avgPlayTime < 3 then strategies ++ [extendWatchTimeStrategy] else strategies
  strategies

/-- The `forEach` of `calculateMonthlyTrends`, row by row: computing the
month key of an Invalid Date throws (`none`), otherwise the row is added
into its month bucket. -/
def monthlyFold : List ProcessedData → Obj StageMetrics → Option (Obj StageMetrics)
  | [], acc => some acc
  | row :: rest, acc =>
      match monthKey row.trackingDate with
      | none => none
      | some k => monthlyFold rest (bucketStep acc k row)

/-- `VideoEngagementAnalyzer.calculateMonthlyTrends`. -/
def calculateMonthlyTrends (processedData : List ProcessedData) : Option (Obj StageMetrics) :=
  (monthlyFold processedData []).map (fun o => o.map (fun kv => (kv.1, setStageAvg kv.2)))

/-- `CommunityInsight` in the source. -/
structure CommunityInsight where
  metrics : CommunityMetrics
  insights : List String
deriving DecidableEq

/-- `AnalysisResult` in the source. -/
structure AnalysisResult where
  communityInsights : Obj CommunityInsight
  followUpStrategies : Obj (List Strategy)
  monthlyTrends : Obj StageMetrics
  analysisDate : String
deriving DecidableEq

/-- `[...new Set(xs)]`: deduplicate keeping first occurrences in order. -/
def dedupFirst (l : List String) : List String :=
  l.foldl (fun acc x => if x ∈ acc then acc else acc ++ [x]) []

/-- The `communities.forEach` loop of `analyze`: per community, compute
metrics, insights and strategies and store them under the community
key.  A thrown exception (empty stage breakdown) propagates. -/
def communityLoop (processedData : List ProcessedData) :
    List String → Obj CommunityInsight × Obj (List Strategy) →
    Option (Obj CommunityInsight × Obj (List Strategy))
  | [], acc => some acc
  | c :: cs, acc =>
      let communityData := processedData.filter (fun row => row.community == c)
      let metrics := calculateCommunityMetrics communityData
      match generateInsights metrics with
      | none => none
      | some ins =>
          communityLoop processedData cs
            (objSet acc.1 c { metrics := metrics, insights := ins },
             objSet acc.2 c (generateStrategies metrics))

/-- `VideoEngagementAnalyzer.analyze`.  The current-date read
(`new Date().toISOString().slice(0, 10)`) is passed in as `today`; a
thrown exception anywhere inside is `none`. -/
def analyze (rawData : List EngagementData) (today : String) : Option AnalysisResult :=
  let processedData := preprocessData rawData
  match calculateMonthlyTrends processedData with
  | none => none
  | some mt =>
      let communities := dedupFirst (processedData.map (fun row => row.community))
      match communityLoop processedData communities ([], []) with
      | none => none
      | some (ci, fs) =>
          some { communityInsights := ci, followUpStrategies := fs,
                 monthlyTrends := mt, analysisDate := today }

/-- `replace(/"/g, '')`: drop every double-quote character. -/
def stripQuotes (s : String) : String :=
  String.mk (s.data.filter (fun c => c ≠ '"'))

/-- One header or data line split on commas, each field trimmed and
quote-stripped. -/
def splitLine (line : String) : List String :=
  (splitOnChar ',' line).map (fun v => stripQuotes (jsTrim v))

/-- The stored cell for one field string: `isNaN(Number(v)) ? v :
Number(v)` — a number exactly when the text parses as one. -/
def parseField (v : String) : CellValue :=
  match strToNum v with
  | JSNum.nan => CellValue.str v
  | JSNum.fin q => CellValue.num (JSNum.fin q)

/-- The cell assigned for header position `i`: `values[i]` is
`undefined` when the row is shorter than the header list (and
`isNaN(Number(undefined))`, so the `undefined` is stored as is). -/
def cellAt (values : List String) (i : Nat) : CellValue :=
  match values[i]? with
  | some v => parseField v
  | none => CellValue.undef

/-- The `headers.reduce` building one row object. -/
def mkRow (headers values : List String) : Obj CellValue :=
  headers.enum.foldl (fun obj p => objSet obj p.2 (cellAt values p.1)) []

/-- `parseCSV` in `VideoEngagementUI.tsx`: header line, then one record
per non-blank line. -/
def parseCSV (text : String) : List (Obj CellValue) :=
  match splitOnChar '\n' text with
  | [] => []
  | headerLine :: rest =>
      let headers := splitLine headerLine
      (rest.filter (fun line => jsTrim line ≠ "")).map
        (fun line => mkRow headers (splitLine line))

/-- Sum of one numeric component over all values of a string-keyed map. -/
def objSumBy {α : Type} (f : α → ℚ) (o : Obj α) : ℚ :=
  (o.map (fun kv => f kv.2)).sum

/-- Recognizes the strongest-performance insight by its fixed prefix. -/
def isStrongestShaped (s : String) : Bool :=
  "Strongest performance in ".data.isPrefixOf s.data

/-- A tracking row whose `Invites` cell holds the (negative) number -5. -/
def negInvitesRec : EngagementData :=
  { trackingDate := "2024-01-01"
    invites := CellValue.num (JSNum.fin (-5))
    clicks := CellValue.num (JSNum.fin 1)
    plays := CellValue.num (JSNum.fin 1)
    playTime := CellValue.num (JSNum.fin 1)
    automationStage := "S1"
    community := "A" }

/-- A tracking row whose date text does not parse as a date. -/
def badDateRec : EngagementData :=
  { trackingDate := "not a date"
    invites := CellValue.num (JSNum.fin 10)
    clicks := CellValue.num (JSNum.fin 5)
    plays := CellValue.num (JSNum.fin 2)
    playTime := CellValue.num (JSNum.fin 8)
    automationStage := "S1"
    community := "A" }

/-- A second negative-cell row, used to instantiate the amended C3. -/
def negClicksRec : EngagementData :=
  { trackingDate := "2024-02-02"
    invites := CellValue.num (JSNum.fin 7)
    clicks := CellValue.str "n/a"
    plays := CellValue.undef
    playTime := CellValue.num (JSNum.fin 3)
    automationStage := "S2"
    community := "B" }

/-- A well-formed sample row (the spec's worked scenario). -/
def sampleRec : EngagementData :=
  { trackingDate := "2024-01-01"
    invites := CellValue.num (JSNum.fin 100)
    clicks := CellValue.num (JSNum.fin 60)
    plays := CellValue.num (JSNum.fin 40)
    playTime := CellValue.num (JSNum.fin 200)
    automationStage := "S1"
    community := "A" }




/-! ## Lemmas about the JavaScript object model -/

theorem objGet_objSet_self {α : Type} (o : Obj α) (k : String) (v : α) :
    objGet (objSet o k v) k = some v := by
  induction o with
  | nil => simp [objGet, objSet]
  | cons hd tl ih =>
      obtain ⟨k', v'⟩ := hd
      by_cases h : k' = k
      · simp [objSet, objGet, h]
      · simp [objSet, objGet, h, ih]

theorem objSet_ne_nil {α : Type} (o : Obj α) (k : String) (v : α) :
    objSet o k v ≠ [] := by
  cases o with
  | nil => simp [objSet]
  | cons hd tl =>
      obtain ⟨k', v'⟩ := hd
      by_cases h : k' = k <;> simp [objSet, h]

theorem mem_objSet {α : Type} (o : Obj α) (k : String) (v : α) (kv : String × α)
    (h : kv ∈ objSet o k v) : kv ∈ o ∨ kv = (k, v) := by
  induction o with
  | nil => simpa [objSet] using h
  | cons hd tl ih =>
      obtain ⟨k', v'⟩ := hd
      by_cases hk : k' = k
      · simp only [objSet, if_pos hk, List.mem_cons] at h
        rcases h with h | h
        · exact Or.inr h
        · exact Or.inl (List.mem_cons_of_mem _ h)
      · simp only [objSet, if_neg hk, List.mem_cons] at h
        rcases h with h | h
        · exact Or.inl (h ▸ List.mem_cons_self _ _)
        · rcases ih h with h' | h'
          · exact Or.inl (List.mem_cons_of_mem _ h')
          · exact Or.inr h'

theorem objSumBy_objSet_of_none {α : Type} (f : α → ℚ) (o : Obj α) (k : String) (v : α)
    (h : objGet o k = none) : objSumBy f (objSet o k v) = objSumBy f o + f v := by
  induction o with
  | nil => simp [objSumBy, objSet]
  | cons hd tl ih =>
      obtain ⟨k', v'⟩ := hd
      by_cases hk : k' = k
      · simp [objGet, hk] at h
      · simp only [objGet, if_neg hk] at h
        simp only [objSet, if_neg hk, objSumBy, List.map_cons, List.sum_cons]
        have := ih h
        simp only [objSumBy] at this
        rw [this]; ring

theorem objSumBy_objSet_of_some {α : Type} (f : α → ℚ) (o : Obj α) (k : String) (v st : α)
    (h : objGet o k = some st) : objSumBy f (objSet o k v) = objSumBy f o - f st + f v := by
  induction o with
  | nil => simp [objGet] at h
  | cons hd tl ih =>
      obtain ⟨k', v'⟩ := hd
      by_cases hk : k' = k
      · simp only [objGet, if_pos hk, Option.some.injEq] at h
        subst h
        simp only [objSet, if_pos hk, objSumBy, List.map_cons, List.sum_cons]
        ring
      · simp only [objGet, if_neg hk] at h
        simp only [objSet, if_neg hk, objSumBy, List.map_cons, List.sum_cons]
        have := ih h
        simp only [objSumBy] at this
        rw [this]; ring

theorem objSumBy_bucketStep (f : StageMetrics → ℚ) (g : ProcessedData → ℚ)
    (hf0 : f zeroStage = 0) (hacc : ∀ st r, f (accumStage st r) = f st + g r)
    (o : Obj StageMetrics) (k : String) (r : ProcessedData) :
    objSumBy f (bucketStep o k r) = objSumBy f o + g r := by
  unfold bucketStep
  cases h : objGet o k with
  | none =>
      simp only [h, objGet_objSet_self]
      rw [objSumBy_objSet_of_some f _ k _ zeroStage (objGet_objSet_self o k zeroStage),
        objSumBy_objSet_of_none f o k zeroStage h, hacc, hf0]
      ring
  | some st =>
      simp only [h]
      rw [objSumBy_objSet_of_some f o k _ st h, hacc]
      ring

theorem objSumBy_foldl_bucketStep (f : StageMetrics → ℚ) (g : ProcessedData → ℚ)
    (hf0 : f zeroStage = 0) (hacc : ∀ st r, f (accumStage st r) = f st + g r)
    (key : ProcessedData → String) :
    ∀ (l : List ProcessedData) (o : Obj StageMetrics),
      objSumBy f (l.foldl (fun acc r => bucketStep acc (key r) r) o) =
        objSumBy f o + (l.map g).sum := by
  intro l
  induction l with
  | nil => intro o; simp
  | cons hd tl ih =>
      intro o
      simp only [List.foldl_cons, List.map_cons, List.sum_cons, ih,
        objSumBy_bucketStep f g hf0 hacc]
      ring

theorem objSumBy_map_setStageAvg (f : StageMetrics → ℚ)
    (hf : ∀ st, f (setStageAvg st) = f st) (o : Obj StageMetrics) :
    objSumBy f (o.map (fun kv => (kv.1, setStageAvg kv.2))) = objSumBy f o := by
  induction o with
  | nil => rfl
  | cons hd tl ih =>
      simp only [objSumBy, List.map_cons, List.sum_cons, hf] at ih ⊢
      rw [ih]

theorem foldl_add_map (g : ProcessedData → ℚ) :
    ∀ (l : List ProcessedData) (c : ℚ), l.foldl (fun s r => s + g r) c = c + (l.map g).sum := by
  intro l
  induction l with
  | nil => intro c; simp
  | cons hd tl ih =>
      intro c
      simp only [List.foldl_cons, List.map_cons, List.sum_cons, ih]
      ring

theorem objSumBy_calculateStageBreakdown (f : StageMetrics → ℚ) (g : ProcessedData → ℚ)
    (hf0 : f zeroStage = 0) (hacc : ∀ st r, f (accumStage st r) = f st + g r)
    (havg : ∀ st, f (setStageAvg st) = f st) (data : List ProcessedData) :
    objSumBy f (calculateStageBreakdown data) = (data.map g).sum := by
  unfold calculateStageBreakdown
  rw [objSumBy_map_setStageAvg f havg,
    objSumBy_foldl_bucketStep f g hf0 hacc (fun r => r.automationStage) data []]
  simp [objSumBy]

/-! ## Non-emptiness of the stage breakdown -/

theorem bucketStep_ne_nil (o : Obj StageMetrics) (k : String) (r : ProcessedData) :
    bucketStep o k r ≠ [] := by
  unfold bucketStep
  cases h : objGet o k with
  | none => simp only [h, objGet_objSet_self]; exact objSet_ne_nil _ _ _
  | some st => simp only [h]; exact objSet_ne_nil _ _ _

theorem foldl_bucketStep_ne_nil (key : ProcessedData → String) :
    ∀ (l : List ProcessedData) (o : Obj StageMetrics), o ≠ [] →
      l.foldl (fun acc r => bucketStep acc (key r) r) o ≠ [] := by
  intro l
  induction l with
  | nil => intro o h; simpa using h
  | cons hd tl ih =>
      intro o _
      simp only [List.foldl_cons]
      exact ih _ (bucketStep_ne_nil o (key hd) hd)

theorem calculateStageBreakdown_ne_nil (data : List ProcessedData) (h : data ≠ []) :
    calculateStageBreakdown data ≠ [] := by
  unfold calculateStageBreakdown
  cases data with
  | nil => exact absurd rfl h
  | cons hd tl =>
      simp only [List.foldl_cons, ne_eq, List.map_eq_nil_iff]
      exact foldl_bucketStep_ne_nil _ tl _ (bucketStep_ne_nil [] _ hd)

/-! ## Monthly trends: throwing behaviour -/

theorem monthKey_eq_none_iff (d : JSDate) : monthKey d = none ↔ d = JSDate.invalid := by
  cases d <;> simp [monthKey]

theorem monthlyFold_eq_none_iff :
    ∀ (pd : List ProcessedData) (acc : Obj StageMetrics),
      monthlyFold pd acc = none ↔ ∃ r ∈ pd, monthKey r.trackingDate = none := by
  intro pd
  induction pd with
  | nil => intro acc; simp [monthlyFold]
  | cons hd tl ih =>
      intro acc
      cases h : monthKey hd.trackingDate with
      | none => simp [monthlyFold, h]
      | some k => simp [monthlyFold, h, ih]

theorem calculateMonthlyTrends_eq_none_iff (pd : List ProcessedData) :
    calculateMonthlyTrends pd = none ↔ ∃ r ∈ pd, r.trackingDate = JSDate.invalid := by
  unfold calculateMonthlyTrends
  rw [Option.map_eq_none', monthlyFold_eq_none_iff]
  simp only [monthKey_eq_none_iff]

/-! ## The community loop never throws -/

theorem mem_of_mem_dedupFirst :
    ∀ (l acc : List String) (x : String),
      x ∈ l.foldl (fun acc y => if y ∈ acc then acc else acc ++ [y]) acc →
      x ∈ acc ∨ x ∈ l := by
  intro l
  induction l with
  | nil => intro acc x h; exact Or.inl h
  | cons hd tl ih =>
      intro acc x h
      rcases ih _ x h with h' | h'
      · by_cases hm : hd ∈ acc
        · simp only [if_pos hm] at h'; exact Or.inl h'
        · simp only [if_neg hm, List.mem_append, List.mem_singleton] at h'
          rcases h' with h' | h'
          · exact Or.inl h'
          · exact Or.inr (h' ▸ List.mem_cons_self _ _)
      · exact Or.inr (List.mem_cons_of_mem _ h')

theorem generateInsights_isSome (m : CommunityMetrics) (h : m.stageBreakdown ≠ []) :
    ∃ l, generateInsights m = some l := by
  unfold generateInsights
  cases hb : m.stageBreakdown with
  | nil => exact absurd hb h
  | cons first rest => exact ⟨_, rfl⟩

theorem communityLoop_isSome (pd : List ProcessedData) :
    ∀ (cs : List String) (acc : Obj CommunityInsight × Obj (List Strategy)),
      (∀ c ∈ cs, ∃ row ∈ pd, row.community = c) →
      ∃ res, communityLoop pd cs acc = some res := by
  intro cs
  induction cs with
  | nil => intro acc _; exact ⟨acc, rfl⟩
  | cons c cs' ih =>
      intro acc hmem
      obtain ⟨row, hrow, hc⟩ := hmem c (List.mem_cons_self _ _)
      have hfilter : row ∈ pd.filter (fun r => r.community == c) := by
        rw [List.mem_filter]
        exact ⟨hrow, by simp [hc]⟩
      have hne : pd.filter (fun r => r.community == c) ≠ [] :=
        List.ne_nil_of_mem hfilter
      have hbd : (calculateCommunityMetrics (pd.filter (fun r => r.community == c))).stageBreakdown ≠ [] :=
        calculateStageBreakdown_ne_nil _ hne
      obtain ⟨l, hl⟩ := generateInsights_isSome _ hbd
      obtain ⟨res, hres⟩ := ih _ (fun c' hc' => hmem c' (List.mem_cons_of_mem _ hc'))
      refine ⟨res, ?_⟩
      simp only [communityLoop, hl]
      exact hres

/-! ## Small arithmetic helper -/

theorem ite_zero_flip {x y : ℚ} : (if x ≠ 0 then y else 0) = if x = 0 then 0 else y := by
  by_cases h : x = 0 <;> simp [h]

/-- Claim C1: for every community record sequence, the derived rates of
`calculateCommunityMetrics` and the per-stage `avgPlayTime` of
`calculateStageBreakdown` are exactly 0 when their denominator is 0 and
otherwise equal the defined ratio (`clickRate = totalClicks/totalInvites·100`,
`playRate = totalPlays/totalClicks·100`, `avgPlayTime = totalPlayTime/totalPlays`);
the zero-denominator case is a total, non-throwing computation. -/
theorem claim_C1_zero_guard (communityData : List ProcessedData) :
    ((calculateCommunityMetrics communityData).clickRate =
      if (calculateCommunityMetrics communityData).totalInvites = 0 then 0
      else (calculateCommunityMetrics communityData).totalClicks /
        (calculateCommunityMetrics communityData).totalInvites * 100) ∧
    ((calculateCommunityMetrics communityData).playRate =
      if (calculateCommunityMetrics communityData).totalClicks = 0 then 0
      else (calculateCommunityMetrics communityData).totalPlays /
        (calculateCommunityMetrics communityData).totalClicks * 100) ∧
    ((calculateCommunityMetrics communityData).avgPlayTime =
      if (calculateCommunityMetrics communityData).totalPlays = 0 then 0
      else (calculateCommunityMetrics communityData).totalPlayTime /
        (calculateCommunityMetrics communityData).totalPlays) ∧
    ((calculateCommunityMetrics communityData).stageBreakdown =
      calculateStageBreakdown communityData) ∧
    (∀ kv ∈ calculateStageBreakdown communityData,
      kv.2.avgPlayTime = some (if kv.2.plays = 0 then 0 else kv.2.playTime / kv.2.plays)) := by
  refine ⟨?_, ?_, ?_, rfl, ?_⟩
  · simp only [calculateCommunityMetrics]
    exact ite_zero_flip
  · simp only [calculateCommunityMetrics]
    exact ite_zero_flip
  · simp only [calculateCommunityMetrics]
    exact ite_zero_flip
  · intro kv hkv
    unfold calculateStageBreakdown at hkv
    rcases List.mem_map.mp hkv with ⟨kv', _, rfl⟩
    simp only [setStageAvg]
    rw [ite_zero_flip]

theorem objSumBy_breakdown_eq_foldl (d : List ProcessedData) (f : StageMetrics → ℚ)
    (g : ProcessedData → ℚ) (h0 : f zeroStage = 0)
    (hacc : ∀ st r, f (accumStage st r) = f st + g r)
    (havg : ∀ st, f (setStageAvg st) = f st) :
    objSumBy f (calculateStageBreakdown d) = d.foldl (fun s r => s + g r) 0 := by
  rw [objSumBy_calculateStageBreakdown f g h0 hacc havg, foldl_add_map]
  simp

/-- Claim C7: for every input record sequence and every community, the
sums of per-stage invites, clicks, plays and playTime across the stage
breakdown equal the community-level totals of
`calculateCommunityMetrics`. -/
theorem claim_C7_stage_sums (data : List ProcessedData) (c : String) :
    (objSumBy (fun st => st.invites)
        ((calculateCommunityMetrics (data.filter (fun row => row.community == c))).stageBreakdown) =
      (calculateCommunityMetrics (data.filter (fun row => row.community == c))).totalInvites) ∧
    (objSumBy (fun st => st.clicks)
        ((calculateCommunityMetrics (data.filter (fun row => row.community == c))).stageBreakdown) =
      (calculateCommunityMetrics (data.filter (fun row => row.community == c))).totalClicks) ∧
    (objSumBy (fun st => st.plays)
        ((calculateCommunityMetrics (data.filter (fun row => row.community == c))).stageBreakdown) =
      (calculateCommunityMetrics (data.filter (fun row => row.community == c))).totalPlays) ∧
    (objSumBy (fun st => st.playTime)
        ((calculateCommunityMetrics (data.filter (fun row => row.community == c))).stageBreakdown) =
      (calculateCommunityMetrics (data.filter (fun row => row.community == c))).totalPlayTime) := by
  refine ⟨?_, ?_, ?_, ?_⟩ <;>
    exact objSumBy_breakdown_eq_foldl _ _ _ rfl (fun _ _ => rfl) (fun _ => rfl)

/-- Claim C2 (counterexample): a record whose tracking-date text does not
parse as a date makes monthly-key extraction — and hence `analyze` —
throw (`none`), rather than bucket under a garbage key. -/
theorem claim_C2_counterexample :
    calculateMonthlyTrends (preprocessData [badDateRec]) = none ∧
    analyze [badDateRec] "2026-10-11" = none := ⟨rfl, rfl⟩

/-- Claim C2 (amended): `analyze` throws exactly when some record's
tracking date is unparsable (an Invalid Date); for input whose dates all
parse, the analyzer does not throw. -/
theorem claim_C2_amended (raw : List EngagementData) (today : String) :
    analyze raw today = none ↔
      ∃ r ∈ preprocessData raw, r.trackingDate = JSDate.invalid := by
  cases h : calculateMonthlyTrends (preprocessData raw) with
  | none =>
      simp only [analyze, h]
      exact ⟨fun _ => (calculateMonthlyTrends_eq_none_iff _).mp h, fun _ => trivial⟩
  | some mt =>
      have hmem : ∀ c ∈ dedupFirst ((preprocessData raw).map (fun row => row.community)),
          ∃ row ∈ preprocessData raw, row.community = c := by
        intro c hc
        rcases mem_of_mem_dedupFirst _ [] c hc with h' | h'
        · simp at h'
        · rcases List.mem_map.mp h' with ⟨row, hrow, hcomm⟩
          exact ⟨row, hrow, hcomm⟩
      obtain ⟨res, hres⟩ := communityLoop_isSome (preprocessData raw) _ ([], []) hmem
      obtain ⟨ci, fs⟩ := res
      simp only [analyze, h, hres]
      constructor
      · intro habs; exact absurd habs (by simp)
      · intro hex
        have hnone : calculateMonthlyTrends (preprocessData raw) = none :=
          (calculateMonthlyTrends_eq_none_iff _).mpr hex
        rw [h] at hnone
        exact absurd hnone (by simp)

/-- Claim C10: on the empty record sequence, `analyze` does not throw
and returns a report with empty communityInsights, followUpStrategies
and monthlyTrends, only the analysis date populated. -/
theorem claim_C10_empty_input (today : String) :
    analyze [] today =
      some (AnalysisResult.mk [] [] [] today) := rfl

/-- Claim C9: preprocessing is a per-record map — same length, same
order — and leaves the Community and Automation Stage fields of every
record unchanged. -/
theorem claim_C9_frame (data : List EngagementData) :
    (preprocessData data).length = data.length ∧
    ∀ i : Nat,
      ((preprocessData data)[i]?).map (fun p => p.community) =
        (data[i]?).map (fun r => r.community) ∧
      ((preprocessData data)[i]?).map (fun p => p.automationStage) =
        (data[i]?).map (fun r => r.automationStage) := by
  refine ⟨by simp [preprocessData], fun i => ⟨?_, ?_⟩⟩ <;>
  · simp only [preprocessData, List.getElem?_map, Option.map_map]
    cases data[i]? <;> rfl

/-- Claim C3 (counterexample): a raw record whose `Invites` cell is the
number -5 is preprocessed to `Invites = -5`, a negative value — the
four numeric fields are not always non-negative. -/
theorem claim_C3_counterexample :
    (preprocessData [negInvitesRec]).map (fun p => p.invites) = [(-5 : ℚ)] ∧
    ((-5 : ℚ) < 0) := by
  constructor
  · rfl
  · norm_num

/-- Claim C3 (amended): every ProcessedRecord's four numeric fields are
the finite numbers `Number(cell) || 0` of the corresponding raw cells —
zero substituted when the coercion fails (NaN) or the source value is
absent — so no NaN or undefined propagates past preprocessing; the
result, however, need not be non-negative (negative source numbers pass
through). -/
theorem claim_C3_amended (data : List EngagementData) (i : Nat) (r : EngagementData)
    (h : data[i]? = some r) :
    ∃ p, (preprocessData data)[i]? = some p ∧
      p.invites = coerceNum r.invites ∧ p.clicks = coerceNum r.clicks ∧
      p.plays = coerceNum r.plays ∧ p.playTime = coerceNum r.playTime ∧
      (∀ v : CellValue, jsToNumber v = JSNum.nan → coerceNum v = 0) ∧
      coerceNum CellValue.undef = 0 := by
  have hp : (preprocessData data)[i]? = some
      { trackingDate := parseDate r.trackingDate
        invites := coerceNum r.invites
        clicks := coerceNum r.clicks
        plays := coerceNum r.plays
        playTime := coerceNum r.playTime
        automationStage := r.automationStage
        community := r.community } := by
    simp only [preprocessData, List.getElem?_map, h, Option.map_some']
  exact ⟨_, hp, rfl, rfl, rfl, rfl, fun v hv => by simp [coerceNum, hv], rfl⟩

theorem claim_C3_amended_witness :
    ([negClicksRec][0]? = some negClicksRec) ∧
    (∃ p, (preprocessData [negClicksRec])[0]? = some p ∧
      p.invites = coerceNum negClicksRec.invites ∧
      p.clicks = coerceNum negClicksRec.clicks ∧
      p.plays = coerceNum negClicksRec.plays ∧
      p.playTime = coerceNum negClicksRec.playTime ∧
      (∀ v : CellValue, jsToNumber v = JSNum.nan → coerceNum v = 0) ∧
      coerceNum CellValue.undef = 0) :=
  ⟨rfl, claim_C3_amended [negClicksRec] 0 negClicksRec rfl⟩

/-! ## String prefix facts used to tell the insight messages apart -/

theorem isPrefixOf_self_append (p t : List Char) : p.isPrefixOf (p ++ t) = true := by
  induction p with
  | nil => simp
  | cons x xs ih => simp [List.isPrefixOf_cons₂, ih]

theorem isPrefixOf_append_of_le (p : List Char) :
    ∀ (a b : List Char), p.length ≤ a.length → p.isPrefixOf (a ++ b) = p.isPrefixOf a := by
  induction p with
  | nil => intro a b _; simp
  | cons x xs ih =>
      intro a b h
      cases a with
      | nil => simp at h
      | cons y ys =>
          simp only [List.cons_append, List.isPrefixOf_cons₂]
          rw [ih ys b (by simpa using h)]

theorem string_append_ne (a c : String)
    (h1 : a.data.isPrefixOf c.data = false) (h2 : c.data.isPrefixOf a.data = false) :
    ∀ b d : String, a ++ b ≠ c ++ d := by
  intro b d heq
  have hd : a.data ++ b.data = c.data ++ d.data := by
    have := congrArg String.data heq
    simpa [String.data_append] using this
  rcases Nat.le_total a.data.length c.data.length with hle | hle
  · have htrue : a.data.isPrefixOf (a.data ++ b.data) = true := isPrefixOf_self_append _ _
    rw [hd, isPrefixOf_append_of_le _ _ _ hle, h1] at htrue
    exact Bool.noConfusion htrue
  · have htrue : c.data.isPrefixOf (c.data ++ d.data) = true := isPrefixOf_self_append _ _
    rw [← hd, isPrefixOf_append_of_le _ _ _ hle, h2] at htrue
    exact Bool.noConfusion htrue

theorem strongMsg_ne_oppMsg (r r' : ℚ) : strongMsg r ≠ oppMsg r' := by
  unfold strongMsg oppMsg
  exact string_append_ne _ _ (by decide) (by decide) _ _

theorem oppMsg_ne_strongMsg (r r' : ℚ) : oppMsg r ≠ strongMsg r' := by
  unfold strongMsg oppMsg
  exact string_append_ne _ _ (by decide) (by decide) _ _

theorem strongMsg_ne_watchMsg (r t : ℚ) : strongMsg r ≠ watchMsg t := by
  unfold strongMsg watchMsg
  exact string_append_ne _ _ (by decide) (by decide) _ _

theorem watchMsg_ne_strongMsg (t r : ℚ) : watchMsg t ≠ strongMsg r := by
  unfold strongMsg watchMsg
  exact string_append_ne _ _ (by decide) (by decide) _ _

theorem strongMsg_ne_strongestMsg (r : ℚ) (k : String) : strongMsg r ≠ strongestMsg k := by
  unfold strongMsg strongestMsg
  exact string_append_ne _ _ (by decide) (by decide) _ _

theorem strongestMsg_ne_strongMsg (k : String) (r : ℚ) : strongestMsg k ≠ strongMsg r := by
  unfold strongMsg strongestMsg
  exact string_append_ne _ _ (by decide) (by decide) _ _

theorem oppMsg_ne_watchMsg (r t : ℚ) : oppMsg r ≠ watchMsg t := by
  unfold oppMsg watchMsg
  exact string_append_ne _ _ (by decide) (by decide) _ _

theorem watchMsg_ne_oppMsg (t r : ℚ) : watchMsg t ≠ oppMsg r := by
  unfold oppMsg watchMsg
  exact string_append_ne _ _ (by decide) (by decide) _ _

theorem oppMsg_ne_strongestMsg (r : ℚ) (k : String) : oppMsg r ≠ strongestMsg k := by
  unfold oppMsg strongestMsg
  exact string_append_ne _ _ (by decide) (by decide) _ _

theorem strongestMsg_ne_oppMsg (k : String) (r : ℚ) : strongestMsg k ≠ oppMsg r := by
  unfold oppMsg strongestMsg
  exact string_append_ne _ _ (by decide) (by decide) _ _

theorem watchMsg_ne_strongestMsg (t : ℚ) (k : String) : watchMsg t ≠ strongestMsg k := by
  unfold watchMsg strongestMsg
  exact string_append_ne _ _ (by decide) (by decide) _ _

theorem strongestMsg_ne_watchMsg (k : String) (t : ℚ) : strongestMsg k ≠ watchMsg t := by
  unfold watchMsg strongestMsg
  exact string_append_ne _ _ (by decide) (by decide) _ _

theorem isStrongestShaped_strongestMsg (k : String) : isStrongestShaped (strongestMsg k) = true := by
  unfold isStrongestShaped strongestMsg
  rw [String.data_append]
  exact isPrefixOf_self_append _ _

theorem isStrongestShaped_strongMsg (r : ℚ) : isStrongestShaped (strongMsg r) = false := by
  unfold isStrongestShaped strongMsg
  rw [String.data_append, isPrefixOf_append_of_le _ _ _ (by decide)]
  decide

theorem isStrongestShaped_oppMsg (r : ℚ) : isStrongestShaped (oppMsg r) = false := by
  unfold isStrongestShaped oppMsg
  rw [String.data_append, isPrefixOf_append_of_le _ _ _ (by decide)]
  decide

theorem isStrongestShaped_watchMsg (t : ℚ) : isStrongestShaped (watchMsg t) = false := by
  unfold isStrongestShaped watchMsg
  rw [String.data_append, isPrefixOf_append_of_le _ _ _ (by decide)]
  decide

/-- Claim C6: `generateStrategies` returns the Improve Initial
Engagement strategy iff clickRate < 40, the Increase Play Rate strategy
iff playRate < 70, the Extend Watch Time strategy iff avgPlayTime < 3
(all strict); each rule contributes at most one strategy with its fixed
focus and four fixed actions, in the fixed rule order, and a community
triggering no rule gets an empty sequence. -/
theorem claim_C6_strategy_gating (m : CommunityMetrics) :
    (improveEngagementStrategy ∈ generateStrategies m ↔ m.clickRate < 40) ∧
    (increasePlayRateStrategy ∈ generateStrategies m ↔ m.playRate < 70) ∧
    (extendWatchTimeStrategy ∈ generateStrategies m ↔ m.avgPlayTime < 3) ∧
    List.Sublist (generateStrategies m)
      [improveEngagementStrategy, increasePlayRateStrategy, extendWatchTimeStrategy] ∧
    (generateStrategies m = [] ↔
      ¬ m.clickRate < 40 ∧ ¬ m.playRate < 70 ∧ ¬ m.avgPlayTime < 3) ∧
    improveEngagementStrategy.actions.length = 4 ∧
    increasePlayRateStrategy.actions.length = 4 ∧
    extendWatchTimeStrategy.actions.length = 4 := by
  by_cases h1 : m.clickRate < 40 <;> by_cases h2 : m.playRate < 70 <;>
    by_cases h3 : m.avgPlayTime < 3 <;>
    simp only [generateStrategies, h1, h2, h3, if_true, if_false, ite_true, ite_false,
      List.nil_append, List.append_nil, List.cons_append] <;>
    refine ⟨?_, ?_, ?_, ?_, ?_, rfl, rfl, rfl⟩ <;>
    simp [h1, h2, h3] <;> decide

/-- Claim C5: `generateInsights` emits the strong-initial-engagement
message iff clickRate > 50, the opportunity message iff clickRate < 30
(and not > 50), neither click-rate message on [30, 50], and the
excellent-watch-time message iff avgPlayTime > 5; the messages appear
in rule order, before the final strongest-stage message. -/
theorem claim_C5_insight_gating (m : CommunityMetrics) (l : List String)
    (h : generateInsights m = some l) :
    (strongMsg m.clickRate ∈ l ↔ m.clickRate > 50) ∧
    (oppMsg m.clickRate ∈ l ↔ m.clickRate < 30 ∧ ¬ m.clickRate > 50) ∧
    (watchMsg m.avgPlayTime ∈ l ↔ m.avgPlayTime > 5) ∧
    (30 ≤ m.clickRate → m.clickRate ≤ 50 →
      strongMsg m.clickRate ∉ l ∧ oppMsg m.clickRate ∉ l) ∧
    (∃ k, l =
      (if m.clickRate > 50 then [strongMsg m.clickRate]
       else if m.clickRate < 30 then [oppMsg m.clickRate] else []) ++
      (if m.avgPlayTime > 5 then [watchMsg m.avgPlayTime] else []) ++
      [strongestMsg k]) := by
  cases hb : m.stageBreakdown with
  | nil => simp [generateInsights, hb] at h
  | cons first rest =>
      simp only [generateInsights, hb, Option.some.injEq] at h
      subst h
      refine ⟨?_, ?_, ?_, ?_, ⟨(rest.foldl bestStageStep first).1, ?_⟩⟩
      · by_cases h1 : m.clickRate > 50 <;> by_cases h2 : m.clickRate < 30 <;>
          by_cases h3 : m.avgPlayTime > 5 <;>
          simp [h1, h2, h3, strongMsg_ne_oppMsg, strongMsg_ne_watchMsg,
            strongMsg_ne_strongestMsg]
      · by_cases h1 : m.clickRate > 50 <;> by_cases h2 : m.clickRate < 30 <;>
          by_cases h3 : m.avgPlayTime > 5 <;>
          simp [h1, h2, h3, oppMsg_ne_strongMsg, oppMsg_ne_watchMsg,
            oppMsg_ne_strongestMsg]
      · by_cases h1 : m.clickRate > 50 <;> by_cases h2 : m.clickRate < 30 <;>
          by_cases h3 : m.avgPlayTime > 5 <;>
          simp [h1, h2, h3, watchMsg_ne_strongMsg, watchMsg_ne_oppMsg,
            watchMsg_ne_strongestMsg]
      · intro hge hle
        have h1 : ¬ m.clickRate > 50 := by linarith
        have h2 : ¬ m.clickRate < 30 := by linarith
        by_cases h3 : m.avgPlayTime > 5 <;>
          simp [h1, h2, h3, strongMsg_ne_watchMsg, strongMsg_ne_strongestMsg,
            oppMsg_ne_watchMsg, oppMsg_ne_strongestMsg]
      · by_cases h1 : m.clickRate > 50 <;> by_cases h2 : m.clickRate < 30 <;>
          by_cases h3 : m.avgPlayTime > 5 <;> simp [h1, h2, h3]

/-- A concrete metrics value hitting the strong-engagement and
watch-time rules, with a one-stage breakdown. -/
def witnessMetrics : CommunityMetrics :=
  CommunityMetrics.mk 100 60 40 240 60 (200 / 3) 6
    [("S1", StageMetrics.mk 100 60 40 240 1 (some 6))]

theorem witnessMetrics_insights :
    generateInsights witnessMetrics = some [strongMsg 60, watchMsg 6, strongestMsg "S1"] := by
  norm_num [generateInsights, witnessMetrics]

theorem claim_C5_insight_gating_witness :
    (generateInsights witnessMetrics =
      some [strongMsg 60, watchMsg 6, strongestMsg "S1"]) ∧
    ((strongMsg witnessMetrics.clickRate ∈ [strongMsg 60, watchMsg 6, strongestMsg "S1"] ↔
        witnessMetrics.clickRate > 50) ∧
     (oppMsg witnessMetrics.clickRate ∈ [strongMsg 60, watchMsg 6, strongestMsg "S1"] ↔
        witnessMetrics.clickRate < 30 ∧ ¬ witnessMetrics.clickRate > 50) ∧
     (watchMsg witnessMetrics.avgPlayTime ∈ [strongMsg 60, watchMsg 6, strongestMsg "S1"] ↔
        witnessMetrics.avgPlayTime > 5) ∧
     (30 ≤ witnessMetrics.clickRate → witnessMetrics.clickRate ≤ 50 →
        strongMsg witnessMetrics.clickRate ∉ [strongMsg 60, watchMsg 6, strongestMsg "S1"] ∧
        oppMsg witnessMetrics.clickRate ∉ [strongMsg 60, watchMsg 6, strongestMsg "S1"]) ∧
     (∃ k, [strongMsg 60, watchMsg 6, strongestMsg "S1"] =
        (if witnessMetrics.clickRate > 50 then [strongMsg witnessMetrics.clickRate]
         else if witnessMetrics.clickRate < 30 then [oppMsg witnessMetrics.clickRate] else []) ++
        (if witnessMetrics.avgPlayTime > 5 then [watchMsg witnessMetrics.avgPlayTime] else []) ++
        [strongestMsg k])) := by
  constructor
  · exact witnessMetrics_insights
  · exact claim_C5_insight_gating witnessMetrics
      [strongMsg 60, watchMsg 6, strongestMsg "S1"] witnessMetrics_insights

/-- The `reduce` over stage entries returns an entry of the list whose
plays are maximal, and the entries strictly before it in iteration
order all have strictly fewer plays (the strict `>` keeps the earliest
maximal entry). -/
theorem foldl_bestStage_spec :
    ∀ (xs : List (String × StageMetrics)) (b : String × StageMetrics),
      ∃ pre post,
        b :: xs = pre ++ (xs.foldl bestStageStep b) :: post ∧
        (∀ q ∈ pre, q.2.plays < (xs.foldl bestStageStep b).2.plays) ∧
        (∀ q ∈ b :: xs, q.2.plays ≤ (xs.foldl bestStageStep b).2.plays) := by
  intro xs
  induction xs with
  | nil =>
      intro b
      exact ⟨[], [], rfl, by simp, by simp⟩
  | cons x rest ih =>
      intro b
      rw [List.foldl_cons]
      obtain ⟨pre', post', hdec, hlt, hle⟩ := ih (bestStageStep b x)
      by_cases hx : x.2.plays > b.2.plays
      · have hbx : bestStageStep b x = x := by simp [bestStageStep, hx]
        rw [hbx] at hdec hlt hle
        have hxle : x.2.plays ≤ (rest.foldl bestStageStep x).2.plays :=
          hle x (List.mem_cons_self _ _)
        rw [hbx]
        refine ⟨b :: pre', post', ?_, ?_, ?_⟩
        · simpa [List.cons_append] using congrArg (List.cons b) hdec
        · intro q hq
          rcases List.mem_cons.mp hq with rfl | h
          · exact lt_of_lt_of_le hx hxle
          · exact hlt q h
        · intro q hq
          rcases List.mem_cons.mp hq with rfl | h
          · exact le_of_lt (lt_of_lt_of_le hx hxle)
          · exact hle q h
      · have hbx : bestStageStep b x = b := by simp [bestStageStep, hx]
        rw [hbx] at hdec hlt hle
        have hxb : x.2.plays ≤ b.2.plays := le_of_not_lt hx
        have hble : b.2.plays ≤ (rest.foldl bestStageStep b).2.plays :=
          hle b (List.mem_cons_self _ _)
        rw [hbx]
        cases pre' with
        | nil =>
            simp only [List.nil_append] at hdec
            have h1 : rest.foldl bestStageStep b = b := (List.cons.inj hdec).1.symm
            have h2 : post' = rest := (List.cons.inj hdec).2.symm
            refine ⟨[], x :: post', ?_, by simp, ?_⟩
            · simp only [List.nil_append, h1, h2]
            · intro q hq
              rcases List.mem_cons.mp hq with rfl | h
              · exact hble
              · rcases List.mem_cons.mp h with rfl | h'
                · exact le_trans hxb hble
                · exact hle q (List.mem_cons_of_mem _ h')
        | cons p pre'' =>
            simp only [List.cons_append] at hdec
            have h1 : b = p := (List.cons.inj hdec).1
            have h2 : rest = pre'' ++ rest.foldl bestStageStep b :: post' :=
              (List.cons.inj hdec).2
            have hblt : b.2.plays < (rest.foldl bestStageStep b).2.plays := by
              have hp := hlt p (List.mem_cons_self _ _)
              rw [← h1] at hp
              exact hp
            refine ⟨b :: x :: pre'', post', ?_, ?_, ?_⟩
            · exact congrArg (fun t => b :: x :: t) h2
            · intro q hq
              rcases List.mem_cons.mp hq with rfl | h
              · exact hblt
              · rcases List.mem_cons.mp h with rfl | h'
                · exact lt_of_le_of_lt hxb hblt
                · exact hlt q (List.mem_cons_of_mem _ h')
            · intro q hq
              rcases List.mem_cons.mp hq with rfl | h
              · exact le_of_lt hblt
              · rcases List.mem_cons.mp h with rfl | h'
                · exact le_trans hxb (le_of_lt hblt)
                · exact hle q (List.mem_cons_of_mem _ h')

/-- `generateInsights` on a non-empty breakdown returns the rule
messages followed by exactly one strongest-stage message. -/
theorem generateInsights_shape (m : CommunityMetrics)
    (first : String × StageMetrics) (rest : List (String × StageMetrics))
    (hb : m.stageBreakdown = first :: rest) :
    ∃ X, generateInsights m =
        some (X ++ [strongestMsg (rest.foldl bestStageStep first).1]) ∧
      X.filter isStrongestShaped = [] := by
  refine ⟨(if m.avgPlayTime > 5 then
      (if m.clickRate > 50 then ([] : List String) ++ [strongMsg m.clickRate]
       else if m.clickRate < 30 then ([] : List String) ++ [oppMsg m.clickRate]
       else ([] : List String)) ++ [watchMsg m.avgPlayTime]
    else
      (if m.clickRate > 50 then ([] : List String) ++ [strongMsg m.clickRate]
       else if m.clickRate < 30 then ([] : List String) ++ [oppMsg m.clickRate]
       else ([] : List String))), ?_, ?_⟩
  · simp only [generateInsights, hb]
  · by_cases h1 : m.clickRate > 50 <;> by_cases h2 : m.clickRate < 30 <;>
      by_cases h3 : m.avgPlayTime > 5 <;>
      simp [h1, h2, h3, isStrongestShaped_strongMsg, isStrongestShaped_oppMsg,
        isStrongestShaped_watchMsg]

/-- A concrete processed row for instantiating hypotheses. -/
def sampleProcessed : ProcessedData :=
  ProcessedData.mk (JSDate.valid 2024 1 1) 100 60 40 200 "S1" "A"

/-- Claim C4: for every community with at least one record,
`generateInsights` emits exactly one strongest-performance message; it
is the last insight, it names the first stage (in iteration order)
whose plays are maximal — strict `>` tie-break — and its presence
makes the insight sequence non-empty. -/
theorem claim_C4_strongest_stage (communityData : List ProcessedData)
    (hne : communityData ≠ []) :
    ∃ l best pre post,
      generateInsights (calculateCommunityMetrics communityData) = some l ∧
      l ≠ [] ∧
      l.getLast? = some (strongestMsg best.1) ∧
      (calculateCommunityMetrics communityData).stageBreakdown = pre ++ best :: post ∧
      (∀ q ∈ pre, q.2.plays < best.2.plays) ∧
      (∀ q ∈ (calculateCommunityMetrics communityData).stageBreakdown,
        q.2.plays ≤ best.2.plays) ∧
      (l.filter isStrongestShaped).length = 1 := by
  cases hb : (calculateCommunityMetrics communityData).stageBreakdown with
  | nil => exact absurd hb (calculateStageBreakdown_ne_nil _ hne)
  | cons first rest =>
      obtain ⟨pre, post, hdec, hlt, hle⟩ := foldl_bestStage_spec rest first
      obtain ⟨X, hins, hfilter⟩ := generateInsights_shape _ first rest hb
      refine ⟨X ++ [strongestMsg (rest.foldl bestStageStep first).1],
        rest.foldl bestStageStep first, pre, post, hins, by simp, ?_, ?_, hlt, ?_, ?_⟩
      · simp
      · exact hdec
      · intro q hq
        exact hle q hq
      · simp [List.filter_append, hfilter, isStrongestShaped_strongestMsg]

theorem claim_C4_strongest_stage_witness :
    ([sampleProcessed] ≠ []) ∧
    (∃ l best pre post,
      generateInsights (calculateCommunityMetrics [sampleProcessed]) = some l ∧
      l ≠ [] ∧
      l.getLast? = some (strongestMsg best.1) ∧
      (calculateCommunityMetrics [sampleProcessed]).stageBreakdown = pre ++ best :: post ∧
      (∀ q ∈ pre, q.2.plays < best.2.plays) ∧
      (∀ q ∈ (calculateCommunityMetrics [sampleProcessed]).stageBreakdown,
        q.2.plays ≤ best.2.plays) ∧
      (l.filter isStrongestShaped).length = 1) :=
  ⟨by simp, claim_C4_strongest_stage [sampleProcessed] (by simp)⟩

theorem foldl_objSet_values {α : Type} (P : α → Prop) (f : Nat × String → α) :
    ∀ (ps : List (Nat × String)) (obj : Obj α),
      (∀ kv ∈ obj, P kv.2) → (∀ p, P (f p)) →
      ∀ kv ∈ ps.foldl (fun o p => objSet o p.2 (f p)) obj, P kv.2 := by
  intro ps
  induction ps with
  | nil => intro obj hobj _ kv hkv; exact hobj kv hkv
  | cons p ps' ih =>
      intro obj hobj hf kv hkv
      refine ih (objSet obj p.2 (f p)) ?_ hf kv hkv
      intro kv' hkv'
      rcases mem_objSet _ _ _ _ hkv' with h | h
      · exact hobj kv' h
      · rw [h]; exact hf p

theorem mkRow_values (headers values : List String) :
    ∀ kv ∈ mkRow headers values, kv.2 = CellValue.undef ∨ ∃ w, kv.2 = parseField w := by
  intro kv hkv
  refine foldl_objSet_values (fun c => c = CellValue.undef ∨ ∃ w, c = parseField w)
    (fun p => cellAt values p.1) headers.enum [] ?_ ?_ kv hkv
  · intro kv' hkv'; simp at hkv'
  · intro p
    cases h : values[p.1]? with
    | none => exact Or.inl (by simp [cellAt, h])
    | some w => exact Or.inr ⟨w, by simp [cellAt, h]⟩

theorem parseField_of_nan (v : String) (h : strToNum v = JSNum.nan) :
    parseField v = CellValue.str v := by
  simp [parseField, h]

theorem parseField_of_fin (v : String) (q : ℚ) (h : strToNum v = JSNum.fin q) :
    parseField v = CellValue.num (JSNum.fin q) := by
  simp [parseField, h]

/-- Claim C8: a comma-split-and-stripped CSV field is stored as a
number if and only if its text parses as a number under JavaScript
`Number` (not NaN), in which case the stored number is exactly that
value; otherwise it is kept as the text; and every cell of every row
produced by `parseCSV` is either such a stored field or the
`undefined` of a short row. -/
theorem claim_C8_field_coercion :
    (∀ v : String,
      ((∃ q, parseField v = CellValue.num (JSNum.fin q)) ↔ strToNum v ≠ JSNum.nan) ∧
      (strToNum v = JSNum.nan → parseField v = CellValue.str v) ∧
      (∀ q : ℚ, strToNum v = JSNum.fin q → parseField v = CellValue.num (JSNum.fin q))) ∧
    (∀ text : String, ∀ row ∈ parseCSV text, ∀ kv ∈ row,
      kv.2 = CellValue.undef ∨ ∃ w : String, kv.2 = parseField w) := by
  constructor
  · intro v
    refine ⟨⟨?_, ?_⟩, parseField_of_nan v, fun q hq => parseField_of_fin v q hq⟩
    · rintro ⟨q, hq⟩ hnan
      rw [parseField_of_nan v hnan] at hq
      exact CellValue.noConfusion hq
    · intro hne
      cases h : strToNum v with
      | nan => exact absurd h hne
      | fin q => exact ⟨q, parseField_of_fin v q h⟩
  · intro text row hrow kv hkv
    unfold parseCSV at hrow
    cases hsplit : splitOnChar '\n' text with
    | nil => rw [hsplit] at hrow; simp at hrow
    | cons headerLine rest =>
        rw [hsplit] at hrow
        simp only [List.mem_map] at hrow
        obtain ⟨line, _, hline⟩ := hrow
        rw [← hline] at hkv
        exact mkRow_values _ _ kv hkv

theorem claim_C1_zero_guard_witness :
    ((calculateCommunityMetrics [sampleProcessed]).clickRate =
      if (calculateCommunityMetrics [sampleProcessed]).totalInvites = 0 then 0
      else (calculateCommunityMetrics [sampleProcessed]).totalClicks /
        (calculateCommunityMetrics [sampleProcessed]).totalInvites * 100) ∧
    ((calculateCommunityMetrics [sampleProcessed]).playRate =
      if (calculateCommunityMetrics [sampleProcessed]).totalClicks = 0 then 0
      else (calculateCommunityMetrics [sampleProcessed]).totalPlays /
        (calculateCommunityMetrics [sampleProcessed]).totalClicks * 100) ∧
    ((calculateCommunityMetrics [sampleProcessed]).avgPlayTime =
      if (calculateCommunityMetrics [sampleProcessed]).totalPlays = 0 then 0
      else (calculateCommunityMetrics [sampleProcessed]).totalPlayTime /
        (calculateCommunityMetrics [sampleProcessed]).totalPlays) ∧
    ((calculateCommunityMetrics [sampleProcessed]).stageBreakdown =
      calculateStageBreakdown [sampleProcessed]) ∧
    (∀ kv ∈ calculateStageBreakdown [sampleProcessed],
      kv.2.avgPlayTime = some (if kv.2.plays = 0 then 0 else kv.2.playTime / kv.2.plays)) :=
  claim_C1_zero_guard [sampleProcessed]

theorem claim_C2_amended_witness :
    analyze [sampleRec] "2026-10-11" = none ↔
      ∃ r ∈ preprocessData [sampleRec], r.trackingDate = JSDate.invalid :=
  claim_C2_amended [sampleRec] "2026-10-11"

theorem claim_C6_strategy_gating_witness :
    (improveEngagementStrategy ∈ generateStrategies witnessMetrics ↔
      witnessMetrics.clickRate < 40) ∧
    (increasePlayRateStrategy ∈ generateStrategies witnessMetrics ↔
      witnessMetrics.playRate < 70) ∧
    (extendWatchTimeStrategy ∈ generateStrategies witnessMetrics ↔
      witnessMetrics.avgPlayTime < 3) ∧
    List.Sublist (generateStrategies witnessMetrics)
      [improveEngagementStrategy, increasePlayRateStrategy, extendWatchTimeStrategy] ∧
    (generateStrategies witnessMetrics = [] ↔
      ¬ witnessMetrics.clickRate < 40 ∧ ¬ witnessMetrics.playRate < 70 ∧
      ¬ witnessMetrics.avgPlayTime < 3) ∧
    improveEngagementStrategy.actions.length = 4 ∧
    increasePlayRateStrategy.actions.length = 4 ∧
    extendWatchTimeStrategy.actions.length = 4 :=
  claim_C6_strategy_gating witnessMetrics

theorem claim_C8_field_coercion_witness :
    (strToNum "42" = JSNum.fin 42) ∧
    parseField "42" = CellValue.num (JSNum.fin 42) ∧
    (strToNum "abc" = JSNum.nan) ∧
    parseField "abc" = CellValue.str "abc" :=
  ⟨by decide, (claim_C8_field_coercion.1 "42").2.2 42 (by decide),
   by decide, (claim_C8_field_coercion.1 "abc").2.1 (by decide)⟩
